import Mathlib

/-!
# Verification of the love-diary agent service core

A shallow embedding of the agent-service core (`character_agent.py`,
`agent_manager.py`, `diary_scheduler.py`, `postgres_storage.py`) together
with proofs about its conversation state machine, compression pipeline,
idle-eviction sweep and midnight scheduler.

Modelling conventions:
* Python dict state becomes a Lean structure.  A dict key that can be
  *absent* (as opposed to present with a `None` value) and that is ever read
  with bare indexing (`state["k"]`, which raises `KeyError`) is modelled as
  an `Option` field with `none` meaning "absent".  Keys that are only ever
  read through `dict.get(k, default)` collapse "absent" and "default value"
  into one representation, which is behaviour-preserving.
* Wall-clock instants (`time.time()`, `datetime.utcnow()`) are passed in as
  a `Nat` of seconds since the Unix epoch.
* Every LLM completion is passed in as an explicit argument; a call that can
  raise is passed as `Except String String` where `.error` models the raised
  exception.
* Database writes do not change in-memory agent state; where a claim needs
  them they are recorded as explicit events.
-/

namespace LoveDiary

/-- Sender tag of a chat message (`"player"` / `"character"`). -/
inductive Sender where
  | player
  | character
deriving DecidableEq, Repr

/-- A chat message as stored in `messages_today` / `messages_for_compression`.
`affectionChange` models the extra `"affectionChange"` key that
`process_message` attaches to the character reply when a pending affection
delta was just applied. -/
structure Msg where
  sender : Sender
  text : String
  timestamp : Nat
  affectionChange : Option Int := none
deriving DecidableEq, Repr

/-- The `player_info` dict stored by `CharacterAgent.initialize`. -/
structure PlayerInfo where
  name : String
  gender : String
  timezone : Int
deriving DecidableEq, Repr

/-- The immutable character traits (`character_data` / `character_nft`). -/
structure CharacterData where
  name : String
  birthYear : Nat
  gender : Nat
  occupationId : Nat
  personalityId : Nat
  secret : String
deriving DecidableEq, Repr

/-- `CharacterAgent.state`.  `Option` fields with `none` model dict keys that
are absent (or present with Python `None` where the two are never
distinguished by a read).  In particular `messages_today_count` is `none`
exactly when the `"messages_today_count"` key is missing from the dict: the
code increments it with bare indexing (`self.state["messages_today_count"]
+= 1`), which raises `KeyError` when the key is missing. -/
structure AState where
  character_id : Nat
  player_address : Option String
  player_name : Option String
  player_gender : Option String
  /-- Set by `initialize`; never set by the hibernation wake path. -/
  player_info : Option PlayerInfo
  messages_today : List Msg
  messages_for_compression : List Msg
  today_date : Option String
  backstory : Option String
  backstory_full : Option String
  character_data : Option CharacterData
  affection_level : Int
  total_messages : Nat
  conversation_summary : String
  last_compression_at : Nat
  pending_affection_delta : Int
  pending_diary_messages : Option (List Msg)
  pending_diary_summary : Option String
  pending_diary_date : Option String
  pending_diary_message_count : Option Nat
  messages_today_count : Option Nat
  created_at : Option Nat
deriving DecidableEq, Repr

/-- The fresh state built by `CharacterAgent.__init__`. -/
def initial_state (character_id : Nat) : AState where
  character_id := character_id
  player_address := none
  player_name := none
  player_gender := none
  player_info := none
  messages_today := []
  messages_for_compression := []
  today_date := none
  backstory := none
  backstory_full := none
  character_data := none
  affection_level := 10
  total_messages := 0
  conversation_summary := ""
  last_compression_at := 0
  pending_affection_delta := 0
  pending_diary_messages := some []
  pending_diary_summary := some ""
  pending_diary_date := none
  pending_diary_message_count := some 0
  messages_today_count := some 0
  created_at := none

/-! ## Dates

`CharacterAgent._get_player_date` shifts `datetime.utcnow()` by
`timedelta(hours=player_timezone)` and formats `%Y-%m-%d`.  We compute the
day count of the shifted instant and convert it to a civil date with the
standard days-to-civil algorithm (the same proleptic Gregorian calendar used
by Python's `datetime`). -/

/-- Civil `(year, month, day)` from a count of days since 1970-01-01. -/
def civilFromDays (z0 : Int) : Int × Nat × Nat :=
  let z := z0 + 719468
  let era : Int := z.fdiv 146097
  let doe : Nat := (z - era * 146097).toNat
  let yoe : Nat := (doe - doe / 1460 + doe / 36524 - doe / 146096) / 365
  let doy : Nat := doe - (365 * yoe + yoe / 4 - yoe / 100)
  let mp : Nat := (5 * doy + 2) / 153
  let d : Nat := doy - (153 * mp + 2) / 5 + 1
  let m : Nat := if mp < 10 then mp + 3 else mp - 9
  let y : Int := (yoe : Int) + era * 400 + (if m ≤ 2 then 1 else 0)
  (y, m, d)

/-- Zero-pad a number below 100 to two digits (as `%m` / `%d` do). -/
def pad2 (n : Nat) : String :=
  if n < 10 then "0" ++ toString n else toString n

/-- Format a day count since the epoch as `"YYYY-MM-DD"` (`%Y-%m-%d`). -/
def formatDate (z : Int) : String :=
  let c := civilFromDays z
  toString c.1 ++ "-" ++ pad2 c.2.1 ++ "-" ++ pad2 c.2.2

/-- `CharacterAgent._get_player_date`: current date in the player's timezone,
where `utcNow` is seconds since the epoch and `tz` the UTC offset in hours. -/
def get_player_date (utcNow : Nat) (tz : Int) : String :=
  formatDate (((utcNow : Int) + tz * 3600).fdiv 86400)

/-- Calendar sanity checks: epoch, a leap day, and timezone shifting. -/
theorem civil_date_checks :
    civilFromDays 0 = (1970, 1, 1) ∧
    civilFromDays 19723 = (2024, 1, 1) ∧
    civilFromDays 19782 = (2024, 2, 29) ∧
    civilFromDays 19783 = (2024, 3, 1) ∧
    get_player_date 1704153600 0 = "2024-01-02" ∧
    get_player_date 1704153600 (-1) = "2024-01-01" := by
  refine ⟨by decide, by decide, by decide, by decide, by decide, by decide⟩

/-! ## Python string helpers

Implemented by structural recursion on the character list so that every
definition evaluates inside the kernel. -/

/-- `str.strip()` on a character list: drop leading and trailing
whitespace. -/
def pyStrip (cs : List Char) : List Char :=
  ((cs.dropWhile Char.isWhitespace).reverse.dropWhile Char.isWhitespace).reverse

/-- `str.strip()` on a string. -/
def pyTrim (s : String) : String :=
  ⟨pyStrip s.data⟩

/-- Helper for `pyWordCount`: count maximal whitespace-free runs;
`inWord` records whether the previous character was inside a run. -/
def countWordsAux : Bool → Nat → List Char → Nat
  | _, acc, [] => acc
  | inWord, acc, c :: rest =>
    if c.isWhitespace then countWordsAux false acc rest
    else countWordsAux true (if inWord then acc else acc + 1) rest

/-- `len(s.split())` in Python: the number of maximal whitespace-free runs. -/
def pyWordCount (s : String) : Nat :=
  countWordsAux false 0 s.data

/-- `str.split("\n")` on a character list: cut at every newline, keeping
empty segments, exactly as Python does. -/
def splitNl : List Char → List (List Char)
  | [] => [[]]
  | c :: rest =>
    if c = '\n' then [] :: splitNl rest
    else
      match splitNl rest with
      | [] => [[c]]
      | l :: ls => (c :: l) :: ls

/-- `str.replace(pat, "")` (all occurrences removed, scanning left to
right); `fuel` bounds the recursion by the input length. -/
def removeAllAux (pat : List Char) : Nat → List Char → List Char
  | 0, _ => []
  | _ + 1, [] => []
  | fuel + 1, c :: rest =>
    if pat.isPrefixOf (c :: rest) then
      removeAllAux pat fuel ((c :: rest).drop pat.length)
    else c :: removeAllAux pat fuel rest

/-- `str.replace(pat, "")` on a character list. -/
def removeAll (pat cs : List Char) : List Char :=
  removeAllAux pat cs.length cs

/-! ## Compression threshold -/

/-- The text whose token count `_should_compress_conversation` estimates:
`conversation_summary` with every buffered message text concatenated onto it
(no separators, exactly as the `+=` loop does). -/
def conversationText (s : AState) : String :=
  s.messages_for_compression.foldl (fun acc m => acc ++ m.text) s.conversation_summary

/-- `CharacterAgent._should_compress_conversation`.
The source compares `len(text.split()) * 1.3 > 800` in floating point; we
compare `words * 13 > 8000` in exact arithmetic, which agrees with the float
comparison at every word count (both hold exactly when `words ≥ 616`). -/
def should_compress_conversation (s : AState) : Bool :=
  s.messages_for_compression.length ≥ 15
    || pyWordCount (conversationText s) * 13 > 8000

/-! ## `process_message` -/

/-- The value returned by `process_message`. -/
structure PMOutcome where
  text : String
  affection_change : Int
  should_compress : Bool
deriving DecidableEq, Repr

/-- Append a message and keep the rolling window: `append` followed by
`if len > 15: pop(0)`. -/
def appendTrimmed (l : List Msg) (m : Msg) : List Msg :=
  let l1 := l ++ [m]
  if l1.length > 15 then l1.drop 1 else l1

/-- The player-local "today" used at the top of `process_message`:
`self.state.get("player_info", {}).get("timezone", 0)` then
`_get_player_date`. -/
def process_message_today (s : AState) (now : Nat) : String :=
  get_player_date now ((s.player_info.map PlayerInfo.timezone).getD 0)

/-- The date-change block of `process_message` (lines guarded by
`if self.state["today_date"] != today and self.state["today_date"] is not
None`): stage the pending diary from the current summary and compression
buffer, then reset the daily fields and move `today_date` forward. -/
def daily_rollover_check (s : AState) (today : String) : AState :=
  match s.today_date with
  | none => s
  | some old =>
    if old ≠ today then
      { s with
        pending_diary_summary := some s.conversation_summary
        pending_diary_messages := some s.messages_for_compression
        pending_diary_date := some old
        pending_diary_message_count := some (s.messages_today_count.getD 0)
        today_date := some today
        messages_today := []
        messages_for_compression := []
        conversation_summary := ""
        pending_affection_delta := 0
        messages_today_count := some 0 }
    else s

/-- STEP 1 of `process_message`: apply a pending affection delta, clamp to
`[0, 1000]`, zero the pending delta.  Returns the applied delta
(`affection_from_compression`).  The immediate `update_progress` database
write in this branch does not change in-memory state. -/
def apply_pending_affection (s : AState) : AState × Int :=
  let delta := s.pending_affection_delta
  if delta ≠ 0 then
    ({ s with
        affection_level := max 0 (min 1000 (s.affection_level + delta))
        pending_affection_delta := 0 }, delta)
  else (s, 0)

/-- The state after the player-name update and the date-rollover check. -/
def pm_stage2 (s0 : AState) (player_name : String) (now : Nat) : AState :=
  daily_rollover_check { s0 with player_name := some player_name }
    (process_message_today { s0 with player_name := some player_name } now)

/-- The steps of `process_message` before the first daily-counter increment:
player-name update, date-rollover check, pending-delta application (STEP 1)
and appending the player's message to both lists with the rolling-window
trim (STEP 2 up to the counter).  Returns the state paired with
`affection_from_compression`. -/
def pm_before_count (s0 : AState) (player_name message : String) (now : Nat) :
    AState × Int :=
  let p := apply_pending_affection (pm_stage2 s0 player_name now)
  let s3 := p.1
  let playerMsg : Msg := { sender := .player, text := message, timestamp := now }
  ({ s3 with
      messages_today := appendTrimmed s3.messages_today playerMsg
      messages_for_compression := s3.messages_for_compression ++ [playerMsg]
      total_messages := s3.total_messages + 1 }, p.2)

/-- The rest of `process_message` from the first daily-counter increment on:
`p` is the state and `affection_from_compression` produced by
`pm_before_count`.  If the `"messages_today_count"` key is absent the bare
`+= 1` raises `KeyError` and the call ends there with the partial state;
otherwise the counter is bumped, the reply (tagged with the applied
affection change when non-zero) is appended to both lists with the
rolling-window trim, the counter bumped again, and the outcome built. -/
def pm_finish (p : AState × Int) (replyText : String) (now : Nat) :
    AState × Option PMOutcome :=
  match p.1.messages_today_count with
  | none => (p.1, none)
  | some c =>
    let s5 := { p.1 with messages_today_count := some (c + 1) }
    let charMsg : Msg :=
      { sender := .character, text := replyText, timestamp := now
        affectionChange := if p.2 ≠ 0 then some p.2 else none }
    let s6 := { s5 with
                messages_today := appendTrimmed s5.messages_today charMsg
                messages_for_compression := s5.messages_for_compression ++ [charMsg]
                messages_today_count := some (c + 2) }
    (s6, some { text := replyText
                affection_change := p.2
                should_compress := should_compress_conversation s6 })

/-- `CharacterAgent.process_message`.  `replyText` is the chat completion
returned by the LLM; the diary memory lookup is best-effort and does not
change state, so it is not a parameter.  The result is the final state
paired with `some` outcome, or `none` when the call raises `KeyError` at
`self.state["messages_today_count"] += 1` (the partially mutated state is
still returned, as Python leaves the mutations made before the raise). -/
def process_message (s0 : AState) (player_name message replyText : String)
    (now : Nat) : AState × Option PMOutcome :=
  pm_finish (pm_before_count s0 player_name message now) replyText now

/-! ## Compression -/

/-- Value of the digit run that starts a character list. -/
def digitsVal (cs : List Char) : Nat :=
  cs.foldl (fun acc c => acc * 10 + (c.toNat - '0'.toNat)) 0

/-- Leftmost match of the regex pattern `[-+]?\d+` over a character list:
an optional sign immediately followed by a maximal digit run. -/
def findFirstInt : List Char → Option Int
  | [] => none
  | c :: rest =>
    if c.isDigit then
      some ((digitsVal (c :: rest.takeWhile Char.isDigit) : Nat) : Int)
    else if c = '+' || c = '-' then
      match rest with
      | [] => none
      | d :: _ =>
        if d.isDigit then
          let n : Int := digitsVal (rest.takeWhile Char.isDigit)
          some (if c = '-' then -n else n)
        else findFirstInt rest
    else findFirstInt rest

/-- Result of parsing the compression completion. -/
structure ParseResult where
  summary : String
  affection_delta : Int
  reasoning : String
deriving DecidableEq, Repr

/-- The lines of the stripped completion
(`result_text.strip().split("\n")`). -/
def pyLines (text : String) : List (List Char) :=
  splitNl (pyStrip text.data)

/-- The lenient line-by-line parse inside `_compress_conversation`: scan the
lines of the stripped completion; a `SUMMARY:` line replaces the summary, an
`AFFECTION_DELTA:` line contributes the first signed integer found in it
clamped to `[-5, 5]`, a `REASONING:` line replaces the reasoning; anything
else is ignored and the delta defaults to `0`. -/
def parseCompressionLine (r : ParseResult) (line : List Char) : ParseResult :=
  if "SUMMARY:".data.isPrefixOf line then
    { r with summary := ⟨pyStrip (removeAll "SUMMARY:".data line)⟩ }
  else if "AFFECTION_DELTA:".data.isPrefixOf line then
    match findFirstInt (pyStrip (removeAll "AFFECTION_DELTA:".data line)) with
    | some n => { r with affection_delta := max (-5) (min 5 n) }
    | none => r
  else if "REASONING:".data.isPrefixOf line then
    { r with reasoning := ⟨pyStrip (removeAll "REASONING:".data line)⟩ }
  else r

/-- Parse the whole compression completion. -/
def parseCompressionResult (text : String) : ParseResult :=
  (pyLines text).foldl parseCompressionLine
    { summary := "", affection_delta := 0, reasoning := "" }

/-- `CharacterAgent._compress_conversation`.  `completion` is the outcome of
the LLM call (`.error` models a raised exception, which propagates).  On a
returned text the parse block never raises (its operations are total on
strings), so the success path replaces the summary, stamps the compression
time, clears `messages_for_compression` and returns the clamped delta. -/
def compress_conversation (s : AState) (completion : Except String String)
    (now : Nat) : Except String (AState × Int) :=
  match completion with
  | .error e => .error e
  | .ok text =>
    let r := parseCompressionResult text
    .ok ({ s with
            conversation_summary := r.summary
            last_compression_at := now
            messages_for_compression := [] }, r.affection_delta)

/-- `CharacterAgent.compress_and_update_affection`: run the compression under
the agent lock, store the returned delta into `pending_affection_delta`; any
exception is caught and logged, leaving the state untouched, and is never
re-raised to the caller (the function is total). -/
def compress_and_update_affection (s : AState) (completion : Except String String)
    (now : Nat) : AState :=
  match compress_conversation s completion now with
  | .ok (s', delta) => { s' with pending_affection_delta := delta }
  | .error _ => s

/-! ## Remaining agent operations -/

/-- `CharacterAgent.initialize` (renamed: `initialize` is reserved in Lean):
store the player identity, the `player_info` dict, the character data and
today's date in the player's timezone. -/
def init_agent (s : AState) (character_data : CharacterData)
    (player_address player_name player_gender : String) (player_timezone : Int)
    (now : Nat) : AState :=
  { s with
    player_address := some player_address
    player_name := some player_name
    player_gender := some player_gender
    player_info := some
      { name := player_name, gender := player_gender, timezone := player_timezone }
    character_data := some character_data
    today_date := some (get_player_date now player_timezone)
    messages_today := []
    created_at := some now }

/-- `CharacterAgent.generate_backstory`: store the full narrative and its
compressed summary (the two LLM completions are passed in; a failed
completion raises before either field is assigned, leaving the state
unchanged, so only the success path produces a new state). -/
def generate_backstory (s : AState) (full summary : String) : AState :=
  { s with backstory_full := some full, backstory := some summary }

/-- `CharacterAgent.generate_greeting`: append the stripped greeting
completion to both message lists (note: *without* the 15-entry trim) and
increment the daily counter (`self.state["messages_today_count"] += 1`,
which raises `KeyError` when the key is absent — `none` outcome). -/
def generate_greeting (s : AState) (greeting : String) (now : Nat) :
    AState × Option String :=
  let text := pyTrim greeting
  let msg : Msg := { sender := .character, text := text, timestamp := now }
  let s1 := { s with
              messages_today := s.messages_today ++ [msg]
              messages_for_compression := s.messages_for_compression ++ [msg] }
  match s1.messages_today_count with
  | none => (s1, none)
  | some c => ({ s1 with messages_today_count := some (c + 1) }, some text)

/-- First half of the gift endpoint's in-memory mutation: append the
player's gift message to both lists with the rolling-window trim and bump
`total_messages`. -/
def gift_first (s : AState) (giftText : String) (now : Nat) : AState :=
  let pm : Msg := { sender := .player, text := giftText, timestamp := now }
  { s with
    messages_today := appendTrimmed s.messages_today pm
    messages_for_compression := s.messages_for_compression ++ [pm]
    total_messages := s.total_messages + 1 }

/-- Second half of the gift endpoint's in-memory mutation: the bare
`messages_today_count += 1` raises `KeyError` when the key is absent, and
the surrounding `try` catches it there, keeping the partial state;
otherwise the character's thank-you is appended (trimmed window) and the
counter ends two higher. -/
def gift_second (s1 : AState) (charReply : String) (now : Nat) : AState :=
  match s1.messages_today_count with
  | none => s1
  | some c =>
    let cm : Msg := { sender := .character, text := charReply, timestamp := now }
    { s1 with
      messages_today := appendTrimmed s1.messages_today cm
      messages_for_compression := s1.messages_for_compression ++ [cm]
      messages_today_count := some (c + 2) }

/-- The in-memory part of the `/gift` endpoint when the agent is resident.
The endpoint does not change the in-memory `affection_level` (it only
updates the database row with a capped value). -/
def gift_add_messages (s : AState) (giftText charReply : String) (now : Nat) :
    AState :=
  gift_second (gift_first s giftText now) charReply now

/-! ## Persistence records and the hibernation wake path -/

/-- The `hibernate_data` JSON payload.  Each field is `Option`al because the
payload written by the gift endpoint's hibernated branch contains only
`messages_today` and `today_date`; reads go through `dict.get` with the
defaults used in `get_or_create_agent`. -/
structure HibernateData where
  messages_today : Option (List Msg) := none
  messages_for_compression : Option (List Msg) := none
  today_date : Option (Option String) := none
  backstory : Option String := none
  conversation_summary : Option String := none
  last_compression_at : Option Nat := none
  pending_affection_delta : Option Int := none
deriving DecidableEq, Repr

/-- The `hibernate_data` dict built by `AgentManager._hibernate_agent` (and,
with the same keys, by `create_agent_with_backstory`). -/
def export_hibernate_data (s : AState) : HibernateData where
  messages_today := some s.messages_today
  messages_for_compression := some s.messages_for_compression
  today_date := some s.today_date
  backstory := s.backstory
  conversation_summary := some s.conversation_summary
  last_compression_at := some s.last_compression_at
  pending_affection_delta := some s.pending_affection_delta

/-- The columns of an `agent_states` row that `get_or_create_agent` reads. -/
structure StoredRecord where
  character_id : Nat
  player_address : String
  player_info_name : Option String
  player_info_gender : Option String
  player_info_timezone : Int
  character_nft : CharacterData
  backstory : String
  affection_level : Int
  total_messages : Nat
  hibernate_data : Option HibernateData
deriving DecidableEq, Repr

/-- The `transformed_state` dict built by `AgentManager.get_or_create_agent`
when waking an agent from a persisted record (`restore_state` then installs
it verbatim as the agent's state).  Note which keys the translation does
*not* produce: `player_info`, `messages_today_count` and the four
`pending_diary_*` keys are absent from the restored dict. -/
def transformed_state (r : StoredRecord) : AState :=
  let hd := r.hibernate_data.getD {}
  let backstory := hd.backstory.getD r.backstory
  { character_id := r.character_id
    player_address := some r.player_address
    player_name := r.player_info_name
    player_gender := r.player_info_gender
    player_info := none
    messages_today := hd.messages_today.getD []
    messages_for_compression := hd.messages_for_compression.getD []
    today_date := hd.today_date.getD none
    backstory := some backstory
    backstory_full := some r.backstory
    character_data := some r.character_nft
    affection_level := r.affection_level
    total_messages := r.total_messages
    conversation_summary := hd.conversation_summary.getD ""
    last_compression_at := hd.last_compression_at.getD 0
    pending_affection_delta := hd.pending_affection_delta.getD 0
    pending_diary_messages := none
    pending_diary_summary := none
    pending_diary_date := none
    pending_diary_message_count := none
    messages_today_count := none
    created_at := none }

/-! ## AgentManager: idle sweep -/

/-- A write to the persistence collaborator recorded by the sweep. -/
structure SaveHibernationEvent where
  character_id : Nat
  player_address : Option String
  hibernate_data : HibernateData
  affection_level : Int
  total_messages : Nat
deriving DecidableEq, Repr

/-- The parameter names of `PostgresStorage.save_hibernation_state`
(besides `self`); the method declares no defaults and no `**kwargs`. -/
def save_hibernation_state_params : List String :=
  ["character_id", "player_address", "hibernate_data",
   "affection_level", "total_messages"]

/-- The keyword-argument names `AgentManager._hibernate_agent` passes to
`save_hibernation_state` (it adds `player_info=player_info`). -/
def hibernate_agent_call_kwargs : List String :=
  ["character_id", "player_address", "hibernate_data",
   "affection_level", "total_messages", "player_info"]

/-- Python call binding for an all-keyword call to a function with no
parameter defaults and no `**kwargs`: it succeeds exactly when every passed
name is a declared parameter and every declared parameter is passed; any
unexpected keyword raises `TypeError` before the function body runs. -/
def kwargsBind (params kwargs : List String) : Bool :=
  kwargs.all (params.contains ·) && params.all (kwargs.contains ·)

/-- The `AgentManager` pool state: the resident map and the activity map
(both keyed by `character_id`). -/
structure Manager where
  active_agents : List (Nat × AState)
  last_activity : List (Nat × Nat)
deriving Repr

/-- Association-list lookup for the two manager maps. -/
def alookup {α : Type} (l : List (Nat × α)) (k : Nat) : Option α :=
  (l.find? (fun p => p.1 = k)).map Prod.snd

/-- `AgentManager._hibernate_agent`: no-op when the id is not resident;
otherwise export the state, build `hibernate_data` and `player_info`, and
call `storage.save_hibernation_state(..., player_info=player_info)`.  That
call only reaches the database when the keyword arguments bind to the
method's parameters; an unexpected keyword raises `TypeError`, which the
surrounding `except Exception` catches and logs, so neither the database
write nor the removal from the resident maps happens. -/
def hibernate_agent (m : Manager) (character_id : Nat) :
    Manager × List SaveHibernationEvent :=
  match alookup m.active_agents character_id with
  | none => (m, [])
  | some s =>
    if kwargsBind save_hibernation_state_params hibernate_agent_call_kwargs then
      ({ active_agents := m.active_agents.filter (fun p => p.1 ≠ character_id)
         last_activity := m.last_activity.filter (fun p => p.1 ≠ character_id) },
       [{ character_id := character_id
          player_address := s.player_address
          hibernate_data := export_hibernate_data s
          affection_level := s.affection_level
          total_messages := s.total_messages }])
    else (m, [])

/-- `AgentManager._hibernate_inactive_agents`: collect the ids whose
`last_activity` entry is older than `now - AGENT_IDLE_TIMEOUT` and hibernate
each of them in turn. -/
def hibernate_inactive_agents (m : Manager) (now idleTimeout : Nat) :
    Manager × List SaveHibernationEvent :=
  ((m.last_activity.filter
      (fun p => (p.2 : Int) < (now : Int) - (idleTimeout : Int))).map Prod.fst).foldl
    (fun acc cid =>
      ((hibernate_agent acc.1 cid).1, acc.2 ++ (hibernate_agent acc.1 cid).2))
    (m, [])

/-- `AGENT_IDLE_TIMEOUT` default (seconds). -/
def AGENT_IDLE_TIMEOUT : Nat := 3600

/-! ## DiaryScheduler -/

/-- `DiaryScheduler._calculate_midnight_timezone`: the UTC-offset timezone
that has just reached local midnight, from the current UTC hour. -/
def calculate_midnight_timezone (utcHour : Nat) : Int :=
  let timezone_offset : Int := utcHour
  if timezone_offset > 14 then timezone_offset - 24 else timezone_offset

/-! ## The per-agent mutual-exclusion guard

`process_message` and `compress_and_update_affection` both wrap their whole
body in `async with self.compression_lock`.  Under asyncio's cooperative
scheduling a task can only interleave at `await` points; we model a body
holding the lock as a list of atomic segments (`Act`), and the two competing
tasks plus the lock as a small transition system.  A task must acquire the
free lock before its first segment and releases it only after its last, so
the model reflects that the guard is held across every suspension point of
the body. -/

/-- One atomic segment of work performed on the agent state while the lock
is held. -/
abbrev Act := AState → AState

/-- Scheduling status of one task. -/
inductive TaskPhase where
  | pending
  | running
  | finished
deriving DecidableEq, Repr

/-- Control state of one task: its phase and its remaining segments. -/
structure TaskCtl where
  phase : TaskPhase
  rem : List Act

/-- The two-task system: the shared agent state, the owner of
`compression_lock` (`none` = free), and the two tasks (indexed by `Bool`). -/
structure LockSys where
  agent : AState
  lockOwner : Option Bool
  tasks : Bool → TaskCtl

/-- Point update of a task table. -/
def updTask (f : Bool → TaskCtl) (i : Bool) (v : TaskCtl) : Bool → TaskCtl :=
  fun j => if j = i then v else f j

/-- Interleaving semantics: a pending task may acquire the free lock; the
lock owner may run its next segment; the owner with no segments left
releases the lock and finishes.  No rule lets a task touch the agent state
without owning the lock. -/
inductive LStep : LockSys → LockSys → Prop
  | acquire (s : LockSys) (i : Bool) (h1 : s.lockOwner = none)
      (h2 : (s.tasks i).phase = .pending) :
      LStep s ⟨s.agent, some i, updTask s.tasks i ⟨.running, (s.tasks i).rem⟩⟩
  | work (s : LockSys) (i : Bool) (a : Act) (rest : List Act)
      (h1 : s.lockOwner = some i) (h2 : (s.tasks i).rem = a :: rest) :
      LStep s ⟨a s.agent, s.lockOwner, updTask s.tasks i ⟨(s.tasks i).phase, rest⟩⟩
  | release (s : LockSys) (i : Bool) (h1 : s.lockOwner = some i)
      (h2 : (s.tasks i).rem = []) :
      LStep s ⟨s.agent, none, updTask s.tasks i ⟨.finished, []⟩⟩

/-- Run a list of segments in order. -/
def runActs (l : List Act) (a : AState) : AState :=
  l.foldl (fun x f => f x) a

/-- Initial system: lock free, both tasks pending with their full bodies
(`l0` for task `false`, `l1` for task `true`). -/
def initSys (a0 : AState) (l0 l1 : List Act) : LockSys :=
  ⟨a0, none, fun i => ⟨.pending, if i then l1 else l0⟩⟩

/-- The body of task `i`. -/
def bodyOf (l0 l1 : List Act) (i : Bool) : List Act :=
  if i then l1 else l0

theorem runActs_append_one (l : List Act) (a : Act) (x : AState) :
    runActs (l ++ [a]) x = a (runActs l x) := by
  simp [runActs]

theorem updTask_updTask (f : Bool → TaskCtl) (i : Bool) (v w : TaskCtl) :
    updTask (updTask f i v) i w = updTask f i w := by
  funext j
  simp only [updTask]
  split <;> rfl

/-- Invariant of the two-task system: every reachable configuration is in
one of five shapes — nothing started; one task mid-critical-section with the
other untouched; one task finished, the other untouched; the second task
mid-critical-section after the first finished; both finished.  In every
shape the agent state is the serial execution of completed segments: no
shape interleaves segments of the two bodies. -/
inductive Conf (a0 : AState) (l0 l1 : List Act) : LockSys → Prop
  | start : Conf a0 l0 l1 (initSys a0 l0 l1)
  | run1 (i : Bool) (ex rem : List Act) (hsplit : bodyOf l0 l1 i = ex ++ rem) :
      Conf a0 l0 l1
        ⟨runActs ex a0, some i,
         updTask (fun j => ⟨.pending, bodyOf l0 l1 j⟩) i ⟨.running, rem⟩⟩
  | done1 (i : Bool) :
      Conf a0 l0 l1
        ⟨runActs (bodyOf l0 l1 i) a0, none,
         updTask (fun j => ⟨.pending, bodyOf l0 l1 j⟩) i ⟨.finished, []⟩⟩
  | run2 (i : Bool) (ex rem : List Act) (hsplit : bodyOf l0 l1 i = ex ++ rem) :
      Conf a0 l0 l1
        ⟨runActs ex (runActs (bodyOf l0 l1 (!i)) a0), some i,
         updTask (fun _ => ⟨.finished, []⟩) i ⟨.running, rem⟩⟩
  | done2 (i : Bool) :
      Conf a0 l0 l1
        ⟨runActs (bodyOf l0 l1 i) (runActs (bodyOf l0 l1 (!i)) a0), none,
         fun _ => ⟨.finished, []⟩⟩

theorem conf_preserved {a0 : AState} {l0 l1 : List Act} {s s' : LockSys}
    (hc : Conf a0 l0 l1 s) (hs : LStep s s') : Conf a0 l0 l1 s' := by
  cases hc with
  | start =>
    cases hs with
    | acquire i h1 h2 =>
      have h := @Conf.run1 a0 l0 l1 i [] (bodyOf l0 l1 i) rfl
      simpa [initSys, bodyOf, runActs] using h
    | work i a rest h1 h2 => simp [initSys] at h1
    | release i h1 h2 => simp [initSys] at h1
  | run1 i ex rem hsplit =>
    cases hs with
    | acquire j h1 h2 => simp at h1
    | work j a rest h1 h2 =>
      have hji : j = i := by simpa using h1.symm
      subst hji
      have hrem : rem = a :: rest := by simpa [updTask] using h2
      have h := @Conf.run1 a0 l0 l1 j (ex ++ [a]) rest
        (by rw [hsplit, hrem]; simp)
      simpa [runActs_append_one, updTask_updTask, updTask] using h
    | release j h1 h2 =>
      have hji : j = i := by simpa using h1.symm
      subst hji
      have hrem : rem = [] := by simpa [updTask] using h2
      subst hrem
      have hex : ex = bodyOf l0 l1 j := by simpa using hsplit.symm
      subst hex
      have h := @Conf.done1 a0 l0 l1 j
      simpa [updTask_updTask] using h
  | done1 i =>
    cases hs with
    | acquire j h1 h2 =>
      have hji : j ≠ i := by
        intro hji
        subst hji
        simp [updTask] at h2
      have hbi : i = !j := by cases i <;> cases j <;> simp_all
      subst hbi
      have h := @Conf.run2 a0 l0 l1 j [] (bodyOf l0 l1 j) rfl
      have htasks :
          updTask (updTask (fun j' => (⟨.pending, bodyOf l0 l1 j'⟩ : TaskCtl)) (!j)
              ⟨.finished, []⟩) j
            ⟨.running, ((updTask (fun j' => (⟨.pending, bodyOf l0 l1 j'⟩ : TaskCtl)) (!j)
              ⟨.finished, []⟩) j).rem⟩ =
          updTask (fun _ => (⟨.finished, []⟩ : TaskCtl)) j
            ⟨.running, bodyOf l0 l1 j⟩ := by
        funext j'
        cases j <;> cases j' <;> simp [updTask]
      rw [htasks]
      simpa [runActs] using h
    | work j a rest h1 h2 => simp at h1
    | release j h1 h2 => simp at h1
  | run2 i ex rem hsplit =>
    cases hs with
    | acquire j h1 h2 => simp at h1
    | work j a rest h1 h2 =>
      have hji : j = i := by simpa using h1.symm
      subst hji
      have hrem : rem = a :: rest := by simpa [updTask] using h2
      have h := @Conf.run2 a0 l0 l1 j (ex ++ [a]) rest
        (by rw [hsplit, hrem]; simp)
      simpa [runActs_append_one, updTask_updTask, updTask] using h
    | release j h1 h2 =>
      have hji : j = i := by simpa using h1.symm
      subst hji
      have hrem : rem = [] := by simpa [updTask] using h2
      subst hrem
      have hex : ex = bodyOf l0 l1 j := by simpa using hsplit.symm
      subst hex
      have h := @Conf.done2 a0 l0 l1 j
      have htasks :
          updTask (updTask (fun _ => (⟨.finished, []⟩ : TaskCtl)) j
              ⟨.running, []⟩) j ⟨.finished, []⟩ =
          fun _ => (⟨.finished, []⟩ : TaskCtl) := by
        funext j'
        by_cases hj : j' = j <;> simp [updTask, hj]
      rw [htasks]
      exact h
  | done2 i =>
    cases hs with
    | acquire j h1 h2 => simp at h2
    | work j a rest h1 h2 => simp at h1
    | release j h1 h2 => simp at h1

theorem conf_of_reach {a0 : AState} {l0 l1 : List Act} {s : LockSys}
    (h : Relation.ReflTransGen LStep (initSys a0 l0 l1) s) : Conf a0 l0 l1 s := by
  induction h with
  | refl => exact Conf.start
  | tail _ hstep ih => exact conf_preserved ih hstep

/-- Any complete execution of the two lock-guarded bodies produces one of
the two serial outcomes. -/
theorem lock_serializes {a0 : AState} {l0 l1 : List Act} {s : LockSys}
    (h : Relation.ReflTransGen LStep (initSys a0 l0 l1) s)
    (hf0 : (s.tasks false).phase = .finished)
    (hf1 : (s.tasks true).phase = .finished) :
    s.agent = runActs l1 (runActs l0 a0) ∨ s.agent = runActs l0 (runActs l1 a0) := by
  have hc : Conf a0 l0 l1 s := conf_of_reach h
  cases hc with
  | start => simp [initSys] at hf0
  | run1 i ex rem hsplit => cases i <;> simp [updTask, bodyOf] at hf0 hf1
  | done1 i => cases i <;> simp [updTask, bodyOf] at hf0 hf1
  | run2 i ex rem hsplit => cases i <;> simp [updTask, bodyOf] at hf0 hf1
  | done2 i =>
    cases i with
    | false => exact Or.inr (by simp [bodyOf])
    | true => exact Or.inl (by simp [bodyOf])

/-! ## Reachable agent states and the standing invariant -/

/-- The invariant claimed for every state: affection clamped to `[0, 1000]`
and the recent window (`messages_today`) at most 15 entries long. -/
def StateInv (s : AState) : Prop :=
  0 ≤ s.affection_level ∧ s.affection_level ≤ 1000 ∧
    s.messages_today.length ≤ 15

/-- What the persistence layer guarantees about a stored `agent_states` row:
the affection column is in range and the persisted recent window is at most
15 entries.  Every write site establishes this (see
`export_record_inv` and `gift_hibernated_update_inv` below). -/
def RecordInv (r : StoredRecord) : Prop :=
  0 ≤ r.affection_level ∧ r.affection_level ≤ 1000 ∧
    ((r.hibernate_data.getD {}).messages_today.getD []).length ≤ 15

/-- The agent states produced by the public operations as the service
composes them: the `create_agent_with_backstory` sequence (`initialize`,
then backstory generation, then the greeting — the only call site of
`generate_greeting`), message turns, background compressions, gift
handling, and waking from a persisted record. -/
inductive Reachable : AState → Prop
  | initialized (cid : Nat) (cd : CharacterData) (addr name gender : String)
      (tz : Int) (now : Nat) :
      Reachable (init_agent (initial_state cid) cd addr name gender tz now)
  | backstoried (cid : Nat) (cd : CharacterData) (addr name gender : String)
      (tz : Int) (now : Nat) (full summary : String) :
      Reachable (generate_backstory
        (init_agent (initial_state cid) cd addr name gender tz now) full summary)
  | created (cid : Nat) (cd : CharacterData) (addr name gender : String)
      (tz : Int) (now : Nat) (full summary greeting : String) (now2 : Nat) :
      Reachable (generate_greeting (generate_backstory
        (init_agent (initial_state cid) cd addr name gender tz now) full summary)
        greeting now2).1
  | message (s : AState) (pn msg reply : String) (now : Nat) :
      Reachable s → Reachable (process_message s pn msg reply now).1
  | compressed (s : AState) (completion : Except String String) (now : Nat) :
      Reachable s → Reachable (compress_and_update_affection s completion now)
  | gifted (s : AState) (giftText charReply : String) (now : Nat) :
      Reachable s → Reachable (gift_add_messages s giftText charReply now)
  | woken (r : StoredRecord) :
      RecordInv r → Reachable (transformed_state r)

theorem appendTrimmed_length_le {l : List Msg} (m : Msg) (h : l.length ≤ 15) :
    (appendTrimmed l m).length ≤ 15 := by
  simp only [appendTrimmed]
  split
  · simpa using h
  · next h2 =>
    simp only [List.length_append, List.length_singleton] at h2 ⊢
    omega

theorem daily_rollover_fields (s : AState) (t : String) :
    (daily_rollover_check s t).affection_level = s.affection_level ∧
    (daily_rollover_check s t).messages_today.length ≤ s.messages_today.length ∧
    (daily_rollover_check s t).player_info = s.player_info := by
  unfold daily_rollover_check
  cases hx : s.today_date
  · exact ⟨rfl, le_refl _, rfl⟩
  · dsimp only
    split
    · simp
    · exact ⟨rfl, le_refl _, rfl⟩

theorem apply_pending_fields (s : AState) :
    ((apply_pending_affection s).1.messages_today = s.messages_today ∧
     (apply_pending_affection s).1.player_info = s.player_info) ∧
    (0 ≤ s.affection_level → s.affection_level ≤ 1000 →
      0 ≤ (apply_pending_affection s).1.affection_level ∧
      (apply_pending_affection s).1.affection_level ≤ 1000) := by
  simp only [apply_pending_affection]
  split
  · refine ⟨⟨rfl, rfl⟩, fun _ _ => ?_⟩
    constructor
    · exact le_max_left 0 _
    · simp only [max_le_iff]
      exact ⟨by norm_num, le_trans (min_le_left _ _) (le_refl _)⟩
  · exact ⟨⟨rfl, rfl⟩, fun h0 h1 => ⟨h0, h1⟩⟩

theorem pm_before_count_inv (s : AState) (pn msg : String) (now : Nat)
    (h : StateInv s) : StateInv (pm_before_count s pn msg now).1 := by
  obtain ⟨h0, h1, h2⟩ := h
  have hroll := daily_rollover_fields { s with player_name := some pn }
    (process_message_today { s with player_name := some pn } now)
  have happ := apply_pending_fields (pm_stage2 s pn now)
  have e1 : (pm_stage2 s pn now).affection_level = s.affection_level := hroll.1
  have hb := happ.2 (by rw [e1]; exact h0) (by rw [e1]; exact h1)
  refine ⟨hb.1, hb.2, ?_⟩
  show (appendTrimmed (apply_pending_affection (pm_stage2 s pn now)).1.messages_today
      { sender := .player, text := msg, timestamp := now }).length ≤ 15
  apply appendTrimmed_length_le
  rw [happ.1.1]
  have e2 : (pm_stage2 s pn now).messages_today.length ≤ s.messages_today.length :=
    hroll.2.1
  exact le_trans e2 h2

theorem pm_finish_inv (p : AState × Int) (reply : String) (now : Nat)
    (h : StateInv p.1) : StateInv (pm_finish p reply now).1 := by
  unfold pm_finish
  split
  · exact h
  · obtain ⟨g0, g1, g2⟩ := h
    exact ⟨g0, g1, appendTrimmed_length_le _ g2⟩

theorem process_message_preserves_inv (s : AState) (pn msg reply : String)
    (now : Nat) (h : StateInv s) :
    StateInv (process_message s pn msg reply now).1 := by
  exact pm_finish_inv _ reply now (pm_before_count_inv s pn msg now h)

theorem compress_fields (s : AState) (completion : Except String String)
    (now : Nat) :
    (compress_and_update_affection s completion now).affection_level
        = s.affection_level ∧
    (compress_and_update_affection s completion now).messages_today
        = s.messages_today := by
  unfold compress_and_update_affection compress_conversation
  cases completion <;> exact ⟨rfl, rfl⟩

theorem gift_first_inv (s : AState) (g : String) (now : Nat)
    (h : StateInv s) : StateInv (gift_first s g now) := by
  obtain ⟨h0, h1, h2⟩ := h
  exact ⟨h0, h1, appendTrimmed_length_le _ h2⟩

theorem gift_second_inv (s : AState) (r : String) (now : Nat)
    (h : StateInv s) : StateInv (gift_second s r now) := by
  unfold gift_second
  split
  · exact h
  · obtain ⟨h0, h1, h2⟩ := h
    exact ⟨h0, h1, appendTrimmed_length_le _ h2⟩

theorem gift_preserves_inv (s : AState) (g r : String) (now : Nat)
    (h : StateInv s) : StateInv (gift_add_messages s g r now) :=
  gift_second_inv _ r now (gift_first_inv s g now h)

/-- Helper: every reachable state satisfies the invariant. -/
theorem reachable_inv {s : AState} (h : Reachable s) : StateInv s := by
  induction h with
  | initialized cid cd addr name gender tz now =>
    refine ⟨?_, ?_, ?_⟩ <;> simp [init_agent, initial_state, StateInv]
  | backstoried cid cd addr name gender tz now full summary =>
    refine ⟨?_, ?_, ?_⟩ <;>
      simp [generate_backstory, init_agent, initial_state, StateInv]
  | created cid cd addr name gender tz now full summary greeting now2 =>
    refine ⟨?_, ?_, ?_⟩ <;>
      simp [generate_greeting, generate_backstory, init_agent, initial_state]
  | message s pn msg reply now _ ih =>
    exact process_message_preserves_inv s pn msg reply now ih
  | compressed s completion now _ ih =>
    have hc := compress_fields s completion now
    exact ⟨hc.1 ▸ ih.1, hc.1 ▸ ih.2.1, hc.2 ▸ ih.2.2⟩
  | gifted s g r now _ ih => exact gift_preserves_inv s g r now ih
  | woken r hr =>
    exact ⟨hr.1, hr.2.1, by simpa [transformed_state] using hr.2.2⟩

/-! ## Behaviour of one message turn, stage by stage -/

theorem daily_rollover_noop (s : AState) (t : String)
    (h : s.today_date = none ∨ s.today_date = some t) :
    daily_rollover_check s t = s := by
  unfold daily_rollover_check
  rcases h with h | h <;> rw [h]
  simp

theorem apply_pending_zero (s : AState) (h : s.pending_affection_delta = 0) :
    apply_pending_affection s = (s, 0) := by
  simp [apply_pending_affection, h]

theorem apply_pending_nonzero (s : AState) (h : s.pending_affection_delta ≠ 0) :
    apply_pending_affection s =
      ({ s with
          affection_level := max 0 (min 1000 (s.affection_level + s.pending_affection_delta))
          pending_affection_delta := 0 }, s.pending_affection_delta) := by
  simp only [apply_pending_affection]
  split
  · rfl
  · next hfalse => exact absurd h (by simpa using hfalse)

/-- The closing half of a message turn never touches the fields outside the
window/buffer/counter updates. -/
theorem pm_finish_proj (p : AState × Int) (reply : String) (now : Nat) :
    (pm_finish p reply now).1.affection_level = p.1.affection_level ∧
    (pm_finish p reply now).1.pending_affection_delta = p.1.pending_affection_delta ∧
    (pm_finish p reply now).1.pending_diary_date = p.1.pending_diary_date ∧
    (pm_finish p reply now).1.pending_diary_summary = p.1.pending_diary_summary ∧
    (pm_finish p reply now).1.pending_diary_messages = p.1.pending_diary_messages ∧
    (pm_finish p reply now).1.today_date = p.1.today_date ∧
    (pm_finish p reply now).1.player_info = p.1.player_info := by
  unfold pm_finish
  split <;> exact ⟨rfl, rfl, rfl, rfl, rfl, rfl, rfl⟩

/-- The opening half of a message turn only adds the player's message on top
of the pending-delta application. -/
theorem pm_before_count_proj (s : AState) (pn msg : String) (now : Nat) :
    (pm_before_count s pn msg now).1.affection_level
        = (apply_pending_affection (pm_stage2 s pn now)).1.affection_level ∧
    (pm_before_count s pn msg now).1.pending_affection_delta
        = (apply_pending_affection (pm_stage2 s pn now)).1.pending_affection_delta ∧
    (pm_before_count s pn msg now).1.pending_diary_date
        = (apply_pending_affection (pm_stage2 s pn now)).1.pending_diary_date ∧
    (pm_before_count s pn msg now).1.pending_diary_summary
        = (apply_pending_affection (pm_stage2 s pn now)).1.pending_diary_summary ∧
    (pm_before_count s pn msg now).1.pending_diary_messages
        = (apply_pending_affection (pm_stage2 s pn now)).1.pending_diary_messages ∧
    (pm_before_count s pn msg now).1.today_date
        = (apply_pending_affection (pm_stage2 s pn now)).1.today_date ∧
    (pm_before_count s pn msg now).1.player_info
        = (apply_pending_affection (pm_stage2 s pn now)).1.player_info ∧
    (pm_before_count s pn msg now).1.messages_today_count
        = (apply_pending_affection (pm_stage2 s pn now)).1.messages_today_count ∧
    (pm_before_count s pn msg now).2
        = (apply_pending_affection (pm_stage2 s pn now)).2 :=
  ⟨rfl, rfl, rfl, rfl, rfl, rfl, rfl, rfl, rfl⟩

theorem apply_pending_proj (s : AState) :
    (apply_pending_affection s).1.pending_diary_date = s.pending_diary_date ∧
    (apply_pending_affection s).1.pending_diary_summary = s.pending_diary_summary ∧
    (apply_pending_affection s).1.pending_diary_messages = s.pending_diary_messages ∧
    (apply_pending_affection s).1.today_date = s.today_date ∧
    (apply_pending_affection s).1.player_info = s.player_info ∧
    (apply_pending_affection s).1.messages_today_count = s.messages_today_count := by
  simp only [apply_pending_affection]
  split <;> exact ⟨rfl, rfl, rfl, rfl, rfl, rfl⟩

theorem daily_rollover_player_info (s : AState) (t : String) :
    (daily_rollover_check s t).player_info = s.player_info :=
  (daily_rollover_fields s t).2.2

/-- `process_message` never writes the `player_info` key. -/
theorem process_message_player_info (s : AState) (pn msg reply : String)
    (now : Nat) :
    (process_message s pn msg reply now).1.player_info = s.player_info := by
  have h1 := (pm_finish_proj (pm_before_count s pn msg now) reply now).2.2.2.2.2.2
  have h2 := (pm_before_count_proj s pn msg now).2.2.2.2.2.2.1
  have h3 := (apply_pending_proj (pm_stage2 s pn now)).2.2.2.2.1
  have h4 : (pm_stage2 s pn now).player_info = s.player_info :=
    daily_rollover_player_info { s with player_name := some pn } _
  exact h1.trans (h2.trans (h3.trans h4))

theorem pm_finish_some_facts (p : AState × Int) (reply : String) (now : Nat)
    (c : Nat) (h : p.1.messages_today_count = some c) :
    (pm_finish p reply now).1.messages_today_count = some (c + 2) ∧
    ((pm_finish p reply now).2.map PMOutcome.affection_change) = some p.2 := by
  unfold pm_finish
  split
  · next heq => rw [h] at heq; exact absurd heq (by simp)
  · next c' heq =>
    rw [h] at heq
    injection heq with h'
    subst h'
    exact ⟨rfl, rfl⟩

theorem pm_finish_none_eq (p : AState × Int) (reply : String) (now : Nat)
    (h : p.1.messages_today_count = none) :
    pm_finish p reply now = (p.1, none) := by
  unfold pm_finish
  split
  · rfl
  · next c' heq => rw [h] at heq; exact absurd heq (by simp)

theorem daily_rollover_pending_count (s : AState) (t : String) :
    ((daily_rollover_check s t).pending_affection_delta = s.pending_affection_delta ∧
     (daily_rollover_check s t).messages_today_count = s.messages_today_count) ∨
    ((daily_rollover_check s t).pending_affection_delta = 0 ∧
     (daily_rollover_check s t).messages_today_count = some 0) := by
  unfold daily_rollover_check
  cases hx : s.today_date
  · exact Or.inl ⟨rfl, rfl⟩
  · dsimp only
    split
    · exact Or.inr ⟨rfl, rfl⟩
    · exact Or.inl ⟨rfl, rfl⟩

/-- A turn that starts with no pending delta leaves the affection level
untouched and reports an affection change of 0. -/
theorem process_message_zero_pending (s : AState) (pn msg reply : String)
    (now : Nat) (k : Nat)
    (h0 : s.pending_affection_delta = 0)
    (hk : s.messages_today_count = some k) :
    (process_message s pn msg reply now).1.affection_level = s.affection_level ∧
    ((process_message s pn msg reply now).2.map PMOutcome.affection_change)
      = some 0 := by
  have hTaff : (pm_stage2 s pn now).affection_level = s.affection_level :=
    (daily_rollover_fields { s with player_name := some pn } _).1
  have hTpc := daily_rollover_pending_count { s with player_name := some pn }
    (process_message_today { s with player_name := some pn } now)
  have hTpd : (pm_stage2 s pn now).pending_affection_delta = 0 := by
    rcases hTpc with ⟨h1, _⟩ | ⟨h1, _⟩
    · exact h1.trans h0
    · exact h1
  have hTcount : ∃ k2, (pm_stage2 s pn now).messages_today_count = some k2 := by
    rcases hTpc with ⟨_, h2⟩ | ⟨_, h2⟩
    · exact ⟨k, h2.trans hk⟩
    · exact ⟨0, h2⟩
  obtain ⟨k2, hk2⟩ := hTcount
  have hA : apply_pending_affection (pm_stage2 s pn now) = (pm_stage2 s pn now, 0) :=
    apply_pending_zero _ hTpd
  have hBcount : (pm_before_count s pn msg now).1.messages_today_count = some k2 := by
    rw [(pm_before_count_proj s pn msg now).2.2.2.2.2.2.2.1, hA]
    exact hk2
  have hfin := pm_finish_some_facts (pm_before_count s pn msg now) reply now k2 hBcount
  constructor
  · have e1 := (pm_finish_proj (pm_before_count s pn msg now) reply now).1
    have e2 := (pm_before_count_proj s pn msg now).1
    rw [show process_message s pn msg reply now
          = pm_finish (pm_before_count s pn msg now) reply now from rfl, e1, e2, hA]
    exact hTaff
  · have e3 := (pm_before_count_proj s pn msg now).2.2.2.2.2.2.2.2
    rw [show process_message s pn msg reply now
          = pm_finish (pm_before_count s pn msg now) reply now from rfl, hfin.2, e3, hA]

/-- With a non-zero pending delta, no rollover and the daily counter
present, a turn applies the delta with clamping, zeroes the pending delta,
reports exactly that delta, and leaves the counter present. -/
theorem process_message_applies_delta (s : AState) (pn msg reply : String)
    (now : Nat) (c : Nat)
    (hδ : s.pending_affection_delta ≠ 0)
    (hc : s.messages_today_count = some c)
    (hday : s.today_date = none ∨
      s.today_date = some (process_message_today { s with player_name := some pn } now)) :
    (process_message s pn msg reply now).1.affection_level
        = max 0 (min 1000 (s.affection_level + s.pending_affection_delta)) ∧
    (process_message s pn msg reply now).1.pending_affection_delta = 0 ∧
    (process_message s pn msg reply now).1.messages_today_count = some (c + 2) ∧
    ((process_message s pn msg reply now).2.map PMOutcome.affection_change)
        = some s.pending_affection_delta := by
  have hT : pm_stage2 s pn now = { s with player_name := some pn } :=
    daily_rollover_noop { s with player_name := some pn } _ hday
  have hA : apply_pending_affection (pm_stage2 s pn now) =
      ({ s with
          player_name := some pn,
          affection_level := max 0 (min 1000 (s.affection_level + s.pending_affection_delta)),
          pending_affection_delta := 0 }, s.pending_affection_delta) := by
    rw [hT]
    exact apply_pending_nonzero _ hδ
  have hBcount : (pm_before_count s pn msg now).1.messages_today_count = some c := by
    rw [(pm_before_count_proj s pn msg now).2.2.2.2.2.2.2.1, hA]
    exact hc
  have hfin := pm_finish_some_facts (pm_before_count s pn msg now) reply now c hBcount
  have hpm : process_message s pn msg reply now
      = pm_finish (pm_before_count s pn msg now) reply now := rfl
  refine ⟨?_, ?_, ?_, ?_⟩
  · rw [hpm, (pm_finish_proj (pm_before_count s pn msg now) reply now).1,
      (pm_before_count_proj s pn msg now).1, hA]
  · rw [hpm, (pm_finish_proj (pm_before_count s pn msg now) reply now).2.1,
      (pm_before_count_proj s pn msg now).2.1, hA]
  · rw [hpm]
    exact hfin.1
  · rw [hpm, hfin.2, (pm_before_count_proj s pn msg now).2.2.2.2.2.2.2.2, hA]

/-- On a detected date change the rollover block stages the pending diary
from the current summary and buffer and resets the daily fields. -/
theorem daily_rollover_go (s : AState) (t d : String)
    (hold : s.today_date = some d) (hne : d ≠ t) :
    daily_rollover_check s t = { s with
      pending_diary_summary := some s.conversation_summary,
      pending_diary_messages := some s.messages_for_compression,
      pending_diary_date := some d,
      pending_diary_message_count := some (s.messages_today_count.getD 0),
      today_date := some t,
      messages_today := [],
      messages_for_compression := [],
      conversation_summary := "",
      pending_affection_delta := 0,
      messages_today_count := some 0 } := by
  unfold daily_rollover_check
  rw [hold]
  simp [hne]

/-! ## Concrete fixtures used by counterexamples and witnesses -/

/-- A concrete character-trait record. -/
def sampleCharacter : CharacterData :=
  { name := "Mia", birthYear := 1998, gender := 1, occupationId := 2,
    personalityId := 3, secret := "0x9ab2" }

/-- A fully initialized agent state (as after the create sequence), with
`today_date = "2024-01-01"` and a player in UTC (offset 0). -/
def sampleState : AState :=
  { initial_state 7 with
    player_address := some "0xabc",
    player_name := some "Alex",
    player_gender := some "Female",
    player_info := some { name := "Alex", gender := "Female", timezone := 0 },
    character_data := some sampleCharacter,
    backstory := some "short backstory",
    backstory_full := some "long backstory",
    today_date := some "2024-01-01",
    created_at := some 1704067200 }

/-- `sampleState` with a pending affection delta of `+3`. -/
def c1state : AState := { sampleState with pending_affection_delta := 3 }

/-- `sampleState` mid-day: a summary and four buffered messages. -/
def c5state : AState :=
  { sampleState with
    conversation_summary := "we chatted",
    messages_for_compression :=
      [{ sender := .player, text := "m1", timestamp := 1 },
       { sender := .character, text := "m2", timestamp := 2 },
       { sender := .player, text := "m3", timestamp := 3 },
       { sender := .character, text := "m4", timestamp := 4 }],
    messages_today_count := some 4 }

/-- A persisted hibernation payload as `_hibernate_agent` would write it. -/
def sampleHibernate : HibernateData :=
  { messages_today := some [{ sender := .character, text := "hi!", timestamp := 5 }],
    messages_for_compression := some [{ sender := .character, text := "hi!", timestamp := 5 }],
    today_date := some (some "2024-01-02"),
    backstory := some "short backstory",
    conversation_summary := some "sum",
    last_compression_at := some 1704100000,
    pending_affection_delta := some 0 }

/-- A persisted `agent_states` row for a player whose stored timezone is
UTC+9, hibernated with `sampleHibernate`. -/
def sampleRecord : StoredRecord :=
  { character_id := 7, player_address := "0xabc",
    player_info_name := some "Alex", player_info_gender := some "Female",
    player_info_timezone := 9, character_nft := sampleCharacter,
    backstory := "long backstory", affection_level := 42,
    total_messages := 10, hibernate_data := some sampleHibernate }

/-! ## Further supporting lemmas -/

theorem foldl_fixed {α β : Type} (f : β → α → β) (b : β) (l : List α)
    (h : ∀ x a, f x a = x) : l.foldl f b = b := by
  induction l generalizing b with
  | nil => rfl
  | cons a as ih => rw [List.foldl_cons, h b a]; exact ih b

/-- `result_text` mentions an `AFFECTION_DELTA:` line at all. -/
def mentions_delta_line (t : String) : Bool :=
  (pyLines t).any (fun l => "AFFECTION_DELTA:".data.isPrefixOf l)

theorem parseCompressionLine_delta (r : ParseResult) (line : List Char)
    (h : "AFFECTION_DELTA:".data.isPrefixOf line = false) :
    (parseCompressionLine r line).affection_delta = r.affection_delta := by
  simp only [parseCompressionLine, h]
  split
  · rfl
  · simp only [Bool.false_eq_true, if_false]
    split
    · rfl
    · rfl

theorem parse_no_delta_lines (lines : List (List Char)) (r : ParseResult)
    (h : ∀ l ∈ lines, "AFFECTION_DELTA:".data.isPrefixOf l = false) :
    (lines.foldl parseCompressionLine r).affection_delta = r.affection_delta := by
  induction lines generalizing r with
  | nil => rfl
  | cons l ls ih =>
    rw [List.foldl_cons, ih _ (fun x hx => h x (List.mem_cons_of_mem _ hx)),
      parseCompressionLine_delta r l (h l (List.mem_cons_self _ _))]

/-- A completion with no `AFFECTION_DELTA:` line parses to a zero delta. -/
theorem parse_no_delta (t : String) (h : mentions_delta_line t = false) :
    (parseCompressionResult t).affection_delta = 0 := by
  unfold parseCompressionResult
  refine parse_no_delta_lines (pyLines t) _ ?_
  intro l hl
  unfold mentions_delta_line at h
  rw [List.any_eq_false] at h
  have hx := h l hl
  cases hb : "AFFECTION_DELTA:".data.isPrefixOf l with
  | false => rfl
  | true => exact absurd hb hx

/-- The row written by a successful hibernation save of a reachable state
satisfies the persisted-record invariant. -/
theorem export_record_inv (s : AState) (hs : Reachable s) (cid : Nat)
    (addr : String) (pin pig : Option String) (tz : Int) (cd : CharacterData)
    (bs : String) :
    RecordInv {
      character_id := cid,
      player_address := addr,
      player_info_name := pin,
      player_info_gender := pig,
      player_info_timezone := tz,
      character_nft := cd,
      backstory := bs,
      affection_level := s.affection_level,
      total_messages := s.total_messages,
      hibernate_data := some (export_hibernate_data s) } := by
  obtain ⟨h0, h1, h2⟩ := reachable_inv hs
  exact ⟨h0, h1, by simpa [export_hibernate_data] using h2⟩

/-- The gift endpoint's hibernated branch: append the two gift messages to
the persisted window and `while len > 15: pop(0)`. -/
def gift_hibernated_messages (old : List Msg) (m1 m2 : Msg) : List Msg :=
  (old ++ [m1, m2]).drop ((old ++ [m1, m2]).length - 15)

theorem gift_hibernated_messages_le (old : List Msg) (m1 m2 : Msg) :
    (gift_hibernated_messages old m1 m2).length ≤ 15 := by
  unfold gift_hibernated_messages
  rw [List.length_drop]
  omega

/-- The gift endpoint's database affection update
(`min(1000, current + boost)` with a non-negative boost) stays in range. -/
theorem gift_db_affection_in_range (a boost : Int) (h0 : 0 ≤ a)
    (hb : 0 ≤ boost) : 0 ≤ min 1000 (a + boost) ∧ min 1000 (a + boost) ≤ 1000 := by
  omega

/-! # Claim theorems -/

/-- **C1** (counterexample): with `pendingAffectionDelta = +3`, `todayDate =
"2024-01-01"` and a `ProcessMessage` call arriving on player-local date
`2024-01-02`, the date-rollover block zeroes the pending delta *before*
STEP 1 reads it: the `+3` is never added to `affectionLevel` (it stays 10
instead of 13) and the call reports an affection change of 0 — refuting the
claim that the next call always applies a non-zero pending delta exactly
once. -/
theorem pending_delta_dropped_on_rollover :
    c1state.pending_affection_delta = 3 ∧
    c1state.affection_level = 10 ∧
    (process_message c1state "Alex" "hi" "hello" 1704153600).1.affection_level = 10 ∧
    (process_message c1state "Alex" "hi" "hello" 1704153600).1.affection_level ≠
      max 0 (min 1000 (c1state.affection_level + c1state.pending_affection_delta)) ∧
    ((process_message c1state "Alex" "hi" "hello" 1704153600).2.map
      PMOutcome.affection_change) = some 0 ∧
    (process_message c1state "Alex" "hi" "hello" 1704153600).1.pending_affection_delta
      = 0 := by
  decide

/-- **C1** (amended): provided the call detects no date rollover (the
player-local date equals `todayDate`, or `todayDate` is unset) and the
daily-counter key is present, a `ProcessMessage` call on an agent with a
non-zero `pendingAffectionDelta` adds the delta to `affectionLevel` exactly
once — after the rollover check, before the turn's messages are appended —
clamps the result to `[0, 1000]`, zeroes the pending delta, and reports that
delta; a second sequential call applies a delta of 0 and leaves the
affection level unchanged. -/
theorem pending_delta_applied_exactly_once (s : AState)
    (pn msg reply pn2 msg2 reply2 : String) (now now2 : Nat) (c : Nat)
    (hδ : s.pending_affection_delta ≠ 0)
    (hc : s.messages_today_count = some c)
    (hday : s.today_date = none ∨
      s.today_date = some (process_message_today { s with player_name := some pn } now)) :
    (process_message s pn msg reply now).1.affection_level
        = max 0 (min 1000 (s.affection_level + s.pending_affection_delta)) ∧
    (process_message s pn msg reply now).1.pending_affection_delta = 0 ∧
    ((process_message s pn msg reply now).2.map PMOutcome.affection_change)
        = some s.pending_affection_delta ∧
    (process_message (process_message s pn msg reply now).1
        pn2 msg2 reply2 now2).1.affection_level
        = (process_message s pn msg reply now).1.affection_level ∧
    ((process_message (process_message s pn msg reply now).1
        pn2 msg2 reply2 now2).2.map PMOutcome.affection_change) = some 0 := by
  obtain ⟨ha, hp, hcount, hout⟩ :=
    process_message_applies_delta s pn msg reply now c hδ hc hday
  have h2 := process_message_zero_pending (process_message s pn msg reply now).1
    pn2 msg2 reply2 now2 (c + 2) hp hcount
  exact ⟨ha, hp, hout, h2.1, h2.2⟩

theorem pending_delta_applied_exactly_once_witness :
    (process_message c1state "Alex" "hi" "hello" 1704067250).1.affection_level
        = max 0 (min 1000 (c1state.affection_level + c1state.pending_affection_delta)) ∧
    (process_message c1state "Alex" "hi" "hello" 1704067250).1.pending_affection_delta = 0 ∧
    ((process_message c1state "Alex" "hi" "hello" 1704067250).2.map
        PMOutcome.affection_change) = some c1state.pending_affection_delta ∧
    (process_message (process_message c1state "Alex" "hi" "hello" 1704067250).1
        "Alex" "hey" "yo" 1704067300).1.affection_level
        = (process_message c1state "Alex" "hi" "hello" 1704067250).1.affection_level ∧
    ((process_message (process_message c1state "Alex" "hi" "hello" 1704067250).1
        "Alex" "hey" "yo" 1704067300).2.map PMOutcome.affection_change) = some 0 :=
  pending_delta_applied_exactly_once c1state "Alex" "hi" "hello" "Alex" "hey" "yo"
    1704067250 1704067300 0 (by decide) rfl (Or.inr (by decide))

/-- **C2**: every state reachable through the public operations (the create
sequence, message turns, compressions, gift handling, and waking a persisted
record) has `0 ≤ affectionLevel ≤ 1000` and at most 15 entries in the
recent window `messages_today`. -/
theorem reachable_state_invariant (s : AState) (h : Reachable s) :
    0 ≤ s.affection_level ∧ s.affection_level ≤ 1000 ∧
      s.messages_today.length ≤ 15 :=
  reachable_inv h

theorem reachable_state_invariant_witness :
    0 ≤ (transformed_state sampleRecord).affection_level ∧
    (transformed_state sampleRecord).affection_level ≤ 1000 ∧
    (transformed_state sampleRecord).messages_today.length ≤ 15 :=
  reachable_state_invariant (transformed_state sampleRecord)
    (Reachable.woken sampleRecord (by unfold RecordInv; decide))

/-- **C3** (code-bug evaluation): `_hibernate_agent` passes
`player_info=...` to `save_hibernation_state`, whose parameter list has no
such keyword, so the call raises `TypeError` before any database write; the
surrounding `except` swallows it.  Consequently the keyword binding fails,
a single hibernation is a no-op, and the whole idle sweep is the identity
on the resident maps and performs no persistence write — an idle agent is
*never* exported, persisted, or removed by the sweep. -/
theorem idle_sweep_never_removes_agent :
    kwargsBind save_hibernation_state_params hibernate_agent_call_kwargs = false ∧
    (∀ (m : Manager) (cid : Nat), hibernate_agent m cid = (m, [])) ∧
    (∀ (m : Manager) (now idleTimeout : Nat),
      hibernate_inactive_agents m now idleTimeout = (m, [])) := by
  have hbind : kwargsBind save_hibernation_state_params hibernate_agent_call_kwargs
      = false := by decide
  have hagent : ∀ (m : Manager) (cid : Nat), hibernate_agent m cid = (m, []) := by
    intro m cid
    unfold hibernate_agent
    cases halook : alookup m.active_agents cid with
    | none => rfl
    | some s => rw [hbind]; simp
  refine ⟨hbind, hagent, ?_⟩
  intro m now idleTimeout
  unfold hibernate_inactive_agents
  apply foldl_fixed
  intro x a
  rw [hagent x.1 a]
  simp

/-- **C4** (code-bug evaluation): the wake-path translation omits the
`messages_today_count` key, and `process_message` on the woken agent then
raises `KeyError` at `self.state["messages_today_count"] += 1` (outcome
`none`), after the player's message was already appended (the partial
mutation is visible in `total_messages`) — so a public operation on the
restored agent is not well-defined, contradicting the claim that missing
newer fields behave as empty/zero. -/
theorem woken_agent_process_message_keyerror :
    (transformed_state sampleRecord).messages_today_count = none ∧
    (process_message (transformed_state sampleRecord) "Alex" "hi" "hello"
        1704153600).2 = none ∧
    (process_message (transformed_state sampleRecord) "Alex" "hi" "hello"
        1704153600).1.total_messages
      = (transformed_state sampleRecord).total_messages + 1 := by
  decide

/-- **C5**: when a `ProcessMessage` call computes a player-local date that
differs from a previously set `todayDate`, the rollover block stages the
pending diary with the old date, the current summary, the current buffer
contents and the daily count, resets the window, the buffer, the summary,
the pending delta and the daily counter, and moves `todayDate` to today;
the staged diary fields and the new date still hold in the state returned
by the full call. -/
theorem midnight_rollover_stages_pending_diary (s : AState)
    (pn msg reply : String) (now : Nat) (d : String)
    (hold : s.today_date = some d)
    (hne : d ≠ process_message_today { s with player_name := some pn } now) :
    pm_stage2 s pn now = { s with
      player_name := some pn,
      pending_diary_summary := some s.conversation_summary,
      pending_diary_messages := some s.messages_for_compression,
      pending_diary_date := some d,
      pending_diary_message_count := some (s.messages_today_count.getD 0),
      today_date := some (process_message_today { s with player_name := some pn } now),
      messages_today := [],
      messages_for_compression := [],
      conversation_summary := "",
      pending_affection_delta := 0,
      messages_today_count := some 0 } ∧
    (process_message s pn msg reply now).1.pending_diary_date = some d ∧
    (process_message s pn msg reply now).1.pending_diary_summary
        = some s.conversation_summary ∧
    (process_message s pn msg reply now).1.pending_diary_messages
        = some s.messages_for_compression ∧
    (process_message s pn msg reply now).1.today_date
        = some (process_message_today { s with player_name := some pn } now) := by
  have h1 : pm_stage2 s pn now = { s with
      player_name := some pn,
      pending_diary_summary := some s.conversation_summary,
      pending_diary_messages := some s.messages_for_compression,
      pending_diary_date := some d,
      pending_diary_message_count := some (s.messages_today_count.getD 0),
      today_date := some (process_message_today { s with player_name := some pn } now),
      messages_today := [],
      messages_for_compression := [],
      conversation_summary := "",
      pending_affection_delta := 0,
      messages_today_count := some 0 } :=
    daily_rollover_go { s with player_name := some pn } _ d hold hne
  have hpm : process_message s pn msg reply now
      = pm_finish (pm_before_count s pn msg now) reply now := rfl
  refine ⟨h1, ?_, ?_, ?_, ?_⟩
  · rw [hpm, (pm_finish_proj (pm_before_count s pn msg now) reply now).2.2.1,
      (pm_before_count_proj s pn msg now).2.2.1,
      (apply_pending_proj (pm_stage2 s pn now)).1, h1]
  · rw [hpm, (pm_finish_proj (pm_before_count s pn msg now) reply now).2.2.2.1,
      (pm_before_count_proj s pn msg now).2.2.2.1,
      (apply_pending_proj (pm_stage2 s pn now)).2.1, h1]
  · rw [hpm, (pm_finish_proj (pm_before_count s pn msg now) reply now).2.2.2.2.1,
      (pm_before_count_proj s pn msg now).2.2.2.2.1,
      (apply_pending_proj (pm_stage2 s pn now)).2.2.1, h1]
  · rw [hpm, (pm_finish_proj (pm_before_count s pn msg now) reply now).2.2.2.2.2.1,
      (pm_before_count_proj s pn msg now).2.2.2.2.2.1,
      (apply_pending_proj (pm_stage2 s pn now)).2.2.2.1, h1]

theorem midnight_rollover_stages_pending_diary_witness :
    pm_stage2 c5state "Alex" 1704153600 = { c5state with
      player_name := some "Alex",
      pending_diary_summary := some c5state.conversation_summary,
      pending_diary_messages := some c5state.messages_for_compression,
      pending_diary_date := some "2024-01-01",
      pending_diary_message_count := some (c5state.messages_today_count.getD 0),
      today_date := some (process_message_today
        { c5state with player_name := some "Alex" } 1704153600),
      messages_today := [],
      messages_for_compression := [],
      conversation_summary := "",
      pending_affection_delta := 0,
      messages_today_count := some 0 } ∧
    (process_message c5state "Alex" "hi" "hello" 1704153600).1.pending_diary_date
        = some "2024-01-01" ∧
    (process_message c5state "Alex" "hi" "hello" 1704153600).1.pending_diary_summary
        = some c5state.conversation_summary ∧
    (process_message c5state "Alex" "hi" "hello" 1704153600).1.pending_diary_messages
        = some c5state.messages_for_compression ∧
    (process_message c5state "Alex" "hi" "hello" 1704153600).1.today_date
        = some (process_message_today
            { c5state with player_name := some "Alex" } 1704153600) :=
  midnight_rollover_stages_pending_diary c5state "Alex" "hi" "hello" 1704153600
    "2024-01-01" rfl (by decide)

/-- **C6**: a raised exception during compression is caught and leaves the
whole state (in particular `pendingAffectionDelta` and the compression
buffer) untouched; on a returned completion the buffer is cleared (and only
then); and a completion with no `AFFECTION_DELTA:` line degrades to a zero
pending delta — never to a raised error, as `compress_and_update_affection`
is total. -/
theorem compression_failure_semantics (s : AState) (e t1 t2 : String)
    (now : Nat) (hnd : mentions_delta_line t2 = false) :
    compress_and_update_affection s (.error e) now = s ∧
    (compress_and_update_affection s (.ok t1) now).messages_for_compression = [] ∧
    (compress_and_update_affection s (.ok t2) now).pending_affection_delta = 0 := by
  refine ⟨rfl, rfl, ?_⟩
  show (parseCompressionResult t2).affection_delta = 0
  exact parse_no_delta t2 hnd

theorem compression_failure_semantics_witness :
    mentions_delta_line "no structured lines here" = false ∧
    (compress_and_update_affection sampleState (.error "boom") 99 = sampleState ∧
     (compress_and_update_affection sampleState
        (.ok "SUMMARY: fine") 99).messages_for_compression = [] ∧
     (compress_and_update_affection sampleState
        (.ok "no structured lines here") 99).pending_affection_delta = 0) :=
  ⟨by decide, compression_failure_semantics sampleState "boom" "SUMMARY: fine"
    "no structured lines here" 99 (by decide)⟩

/-- **C7**: `process_message` and `compress_and_update_affection` both hold
the per-agent `compression_lock` for their whole body, so in the two-task
lock model any complete interleaving of a message turn and a compression on
the same agent executes the two bodies strictly serially: the final agent
state is one of the two serial compositions, never an interleaving. -/
theorem compress_message_serialized (a0 : AState) (l0 l1 : List Act)
    (s : LockSys)
    (h : Relation.ReflTransGen LStep (initSys a0 l0 l1) s)
    (hf0 : (s.tasks false).phase = .finished)
    (hf1 : (s.tasks true).phase = .finished) :
    s.agent = runActs l1 (runActs l0 a0) ∨
      s.agent = runActs l0 (runActs l1 a0) :=
  lock_serializes h hf0 hf1

/-- One atomic segment of a message turn used in the witness trace. -/
def wAct0 : Act := fun s => { s with total_messages := s.total_messages + 1 }

/-- One atomic segment of a compression used in the witness trace. -/
def wAct1 : Act := fun s => { s with conversation_summary := "compressed" }

def wSys0 : LockSys := initSys sampleState [wAct0] [wAct1]

def wSys1 : LockSys :=
  ⟨wSys0.agent, some false, updTask wSys0.tasks false ⟨.running, (wSys0.tasks false).rem⟩⟩

def wSys2 : LockSys :=
  ⟨wAct0 wSys1.agent, wSys1.lockOwner, updTask wSys1.tasks false ⟨(wSys1.tasks false).phase, []⟩⟩

def wSys3 : LockSys :=
  ⟨wSys2.agent, none, updTask wSys2.tasks false ⟨.finished, []⟩⟩

def wSys4 : LockSys :=
  ⟨wSys3.agent, some true, updTask wSys3.tasks true ⟨.running, (wSys3.tasks true).rem⟩⟩

def wSys5 : LockSys :=
  ⟨wAct1 wSys4.agent, wSys4.lockOwner, updTask wSys4.tasks true ⟨(wSys4.tasks true).phase, []⟩⟩

def wSys6 : LockSys :=
  ⟨wSys5.agent, none, updTask wSys5.tasks true ⟨.finished, []⟩⟩

theorem compress_message_serialized_witness :
    wSys6.agent = runActs [wAct1] (runActs [wAct0] sampleState) ∨
      wSys6.agent = runActs [wAct0] (runActs [wAct1] sampleState) :=
  compress_message_serialized sampleState [wAct0] [wAct1] wSys6
    (Relation.ReflTransGen.head (LStep.acquire wSys0 false rfl rfl)
      (Relation.ReflTransGen.head (LStep.work wSys1 false wAct0 [] rfl rfl)
        (Relation.ReflTransGen.head (LStep.release wSys2 false rfl rfl)
          (Relation.ReflTransGen.head (LStep.acquire wSys3 true rfl rfl)
            (Relation.ReflTransGen.head (LStep.work wSys4 true wAct1 [] rfl rfl)
              (Relation.ReflTransGen.head (LStep.release wSys5 true rfl rfl)
                Relation.ReflTransGen.refl))))))
    rfl rfl

/-- **C8**: for every UTC hour `h < 24` the midnight-timezone computation
returns `h` for `h ≤ 14` and `h - 24` otherwise, so the result lies in
`[-12, 14]`; at UTC hour 9 it selects offset `+9` and at hour 17 offset
`-7`. -/
theorem midnight_timezone_selection :
    (∀ h : Nat, h < 24 →
      calculate_midnight_timezone h
          = (if h ≤ 14 then (h : Int) else (h : Int) - 24) ∧
      -12 ≤ calculate_midnight_timezone h ∧
      calculate_midnight_timezone h ≤ 14) ∧
    calculate_midnight_timezone 9 = 9 ∧
    calculate_midnight_timezone 17 = -7 := by
  refine ⟨?_, by decide, by decide⟩
  decide

theorem midnight_timezone_selection_witness :
    calculate_midnight_timezone 17
        = (if 17 ≤ 14 then (17 : Int) else (17 : Int) - 24) ∧
    -12 ≤ calculate_midnight_timezone 17 ∧
    calculate_midnight_timezone 17 ≤ 14 :=
  midnight_timezone_selection.1 17 (by decide)

/-- A buffer of 15 trivial messages. -/
def state15trivial : AState :=
  { sampleState with
    messages_for_compression :=
      List.replicate 15 { sender := .player, text := "hi", timestamp := 0 } }

/-- 206 one-letter words. -/
def longText : String := String.intercalate " " (List.replicate 206 "a")

/-- Three long messages: 616 words in the estimate (> 615, so the 1.3-per-
word estimate exceeds 800 tokens). -/
def state3long : AState :=
  { sampleState with
    messages_for_compression :=
      [{ sender := .player, text := longText, timestamp := 1 },
       { sender := .character, text := longText, timestamp := 2 },
       { sender := .player, text := longText, timestamp := 3 }] }

/-- Three short messages. -/
def state3short : AState :=
  { sampleState with
    messages_for_compression :=
      [{ sender := .player, text := "hi", timestamp := 1 },
       { sender := .character, text := "hello there", timestamp := 2 },
       { sender := .player, text := "ok", timestamp := 3 }] }

set_option maxRecDepth 10000 in
/-- **C9**: `shouldCompress` is true exactly when the buffer holds at least
15 messages or the word-count estimate of the summary plus buffered texts
exceeds the 800-token budget (`words × 1.3 > 800`, i.e. `words × 13 >
8000`); 15 trivial messages trigger it, 3 long messages trigger it, 3 short
messages do not. -/
theorem should_compress_threshold :
    (∀ s : AState, should_compress_conversation s = true ↔
      (15 ≤ s.messages_for_compression.length ∨
        8000 < pyWordCount (conversationText s) * 13)) ∧
    should_compress_conversation state15trivial = true ∧
    should_compress_conversation state3long = true ∧
    should_compress_conversation state3short = false := by
  refine ⟨fun s => ?_, by decide, by decide, by decide⟩
  simp [should_compress_conversation]

/-- **C10**: the wake-path translation produces a state with no
`player_info` entry, so the player-local date computation in
`process_message` uses timezone offset 0 (UTC) regardless of the persisted
timezone (here UTC+9 in the record); and since `process_message` never
writes `player_info`, every subsequent turn keeps using offset 0. -/
theorem woken_agent_uses_utc_timezone (r : StoredRecord) (now now2 : Nat)
    (pn msg reply : String) :
    (transformed_state r).player_info = none ∧
    process_message_today (transformed_state r) now = get_player_date now 0 ∧
    (process_message (transformed_state r) pn msg reply now2).1.player_info
      = none := by
  refine ⟨?_, ?_, ?_⟩
  · rfl
  · rfl
  · rw [process_message_player_info]
    rfl

end LoveDiary
